import Mathlib

/-!
Verification development for the portfolio-CRM application (src/appCRM.py).

The Python source is shallowly embedded below.  Calendar dates are modelled
as integers counting days (Python date subtraction yields an exact day
count, and date plus timedelta is integer day addition), text as `String`,
and the Supabase-backed record store as two in-memory lists.  Fallible
user actions are modelled in the `Except` monad.
-/

/-! ## Due-status classifier (src/appCRM.py, `_due_status`) -/

/-- Embedding of `_due_status(due_date, today)`.  `none` models a missing
(`None` / `NaT`) due date.  The returned strings are exactly those of the
source, including the hyphenated `"on-track"`. -/
def due_status (due_date : Option Int) (today : Int) : String :=
  match due_date with
  | none => "unknown"
  | some d =>
    let diff := d - today
    if diff < 0 then "overdue"
    else if diff ≤ 7 then "upcoming"
    else "on-track"

/-! ## Cadence engine (src/appCRM.py, `cadence_to_delta`, `next_due_from_today`) -/

/-- Embedding of `cadence_to_delta`: a dictionary lookup with a
30-day default, returned as a day count. -/
def cadence_to_delta (cadence : String) : Int :=
  if cadence = "Weekly" then 7
  else if cadence = "Biweekly" then 14
  else if cadence = "Monthly" then 30
  else if cadence = "Quarterly" then 90
  else 30

/-- Embedding of `next_due_from_today`.  The source reads `date.today()`
from the clock; here today is an explicit argument. -/
def next_due_from_today (cadence : String) (today : Int) : Int :=
  today + cadence_to_delta cadence

/-! ## Displayed due-date state (sidebar overdue count and Reminders tab) -/

/-- Embedding of the sidebar metric
`(companies_df["next_due_date"].dt.date <= date.today()).sum()`.
The argument is the `next_due_date` column; `none` models `NaT`, and a
pandas comparison against `NaT` is false, so missing dates are not
counted. -/
def overdue_count (dues : List (Option Int)) (today : Int) : Nat :=
  dues.countP (fun d =>
    match d with
    | some dd => decide (dd ≤ today)
    | none => false)

/-- Embedding of the Reminders-tab bucketing loop: each company row is
appended to `overdue_list`, `upcoming_list` or `on_track_list` according
to `_due_status` (any status other than overdue and upcoming, including
`"unknown"`, falls into the trailing `else` branch). -/
def sequence_buckets : List (Option Int) → Int →
    List (Option Int) × List (Option Int) × List (Option Int)
  | [], _ => ([], [], [])
  | d :: rest, today =>
    if due_status d today = "overdue" then
      (d :: (sequence_buckets rest today).1,
       (sequence_buckets rest today).2.1,
       (sequence_buckets rest today).2.2)
    else if due_status d today = "upcoming" then
      ((sequence_buckets rest today).1,
       d :: (sequence_buckets rest today).2.1,
       (sequence_buckets rest today).2.2)
    else
      ((sequence_buckets rest today).1,
       (sequence_buckets rest today).2.1,
       d :: (sequence_buckets rest today).2.2)

/-- Embedding of the per-company status in the Reminders expander loop:
`due_date = row["next_due_date"].date() if pd.notna(...) else today`,
then `_due_status(due_date, today)` — a missing date is replaced by
today before classification. -/
def sequence_row_status (d : Option Int) (today : Int) : String :=
  due_status (some (d.getD today)) today

/-! ## PDF text normalization (src/appCRM.py, `_normalize_pdf_text`) -/

/-- One left-to-right pass implementing
`text.replace("\r\n", "\n").replace("\r", "\n")`: a carriage return
followed by a newline collapses to one newline, a lone carriage return
becomes a newline. -/
def normCR : List Char → List Char
  | [] => []
  | '\r' :: '\n' :: rest => '\n' :: normCR rest
  | '\r' :: rest => '\n' :: normCR rest
  | c :: rest => c :: normCR rest

/-- The character map of `.replace("\t", " ").replace(" ", " ")`. -/
def pdfCharMap (c : Char) : Char :=
  if c = '\t' then ' ' else if c = ' ' then ' ' else c

/-- The filter `ch == "\n" or ord(ch) >= 32`. -/
def pdfKeep (c : Char) : Bool :=
  c = '\n' || c.toNat ≥ 32

/-- The first line of `_normalize_pdf_text`:
`str(value) if value is not None else "-"`. -/
def pdfRawText (value : Option String) : String :=
  match value with | some v => v | none => "-"

/-- The replace-and-filter pipeline of `_normalize_pdf_text`. -/
def pdfClean (s : String) : List Char :=
  ((normCR s.data).map pdfCharMap).filter pdfKeep

/-- Embedding of `_normalize_pdf_text(value)`: `None` becomes `"-"`,
line endings are normalized, tabs and non-breaking spaces become plain
spaces, control characters below 32 (newline excepted) are stripped, and
an empty result falls back to `"-"` (`text or "-"`). -/
def normalize_pdf_text (value : Option String) : String :=
  if (pdfClean (pdfRawText value)).isEmpty then "-"
  else String.mk (pdfClean (pdfRawText value))

/-! ## Slugification (src/appCRM.py, `_safe_pdf_slug`) -/

/-- Python `str.isalnum` is Unicode-aware.  The embedding covers the
Basic Latin and Latin-1 blocks, the character range exercised by this
development: ASCII letters and digits, and the Latin-1 alphanumerics
(superscripts, fractions, micro sign, ordinal indicators, and the
letters U+00C0–U+00FF minus the multiplication and division signs).
Code points above U+00FF are outside the modelled range. -/
def pyIsAlnum (c : Char) : Bool :=
  c.isAlphanum
  || (0xC0 ≤ c.toNat && c.toNat ≤ 0xFF && !(c.toNat = 0xD7) && !(c.toNat = 0xF7))
  || c.toNat = 0xAA || c.toNat = 0xB5 || c.toNat = 0xB9 || c.toNat = 0xBA
  || (0xB2 ≤ c.toNat && c.toNat ≤ 0xB3)
  || (0xBC ≤ c.toNat && c.toNat ≤ 0xBE)

/-- Python `.strip("_")`: drop underscores from both ends. -/
def stripUnderscore (l : List Char) : List Char :=
  (((l.dropWhile (fun c => c = '_')).reverse).dropWhile (fun c => c = '_')).reverse

/-- Embedding of `_safe_pdf_slug(raw)`: keep alphanumerics (in the
Python, Unicode sense modelled by `pyIsAlnum`) and `-`/`_`, replace every
other character by `_`, strip boundary underscores, and default to
`"company"` when the result is empty. -/
def slugJoined (raw : String) : List Char :=
  raw.data.map (fun c => if pyIsAlnum c || c = '-' || c = '_' then c else '_')

def safe_pdf_slug (raw : String) : String :=
  if (stripUnderscore (slugJoined raw)).isEmpty then "company"
  else String.mk (stripUnderscore (slugJoined raw))

/-- The character class `[A-Za-z0-9_-]` named by the specification
sentence about slugification (this one definition follows the spec
wording, for comparison against `safe_pdf_slug`). -/
def specSlugChar (c : Char) : Bool :=
  ('A' ≤ c && c ≤ 'Z') || ('a' ≤ c && c ≤ 'z') || ('0' ≤ c && c ≤ '9')
  || c = '_' || c = '-'

example : due_status (some 7) 0 = "upcoming" := by decide
example : due_status (some 8) 0 = "on-track" := by decide
example : normalize_pdf_text (some "") = "-" := by decide
example : normalize_pdf_text (some "a\r\nb\tc") = "a\nb c" := by decide
example : safe_pdf_slug "O Brien   Co  Ltd " = "O_Brien___Co__Ltd" := by decide
example : safe_pdf_slug "é" = "é" := by decide
example : overdue_count [some 0, some 1, none] 0 = 1 := by decide
example : normalize_pdf_text (some "a b") = "a b" := by decide

/-- The whitespace set of Python `str.strip`, modelled through the
Basic Latin and Latin-1 blocks (space, the controls U+0009 through
U+000D and U+001C through U+001F, next line U+0085, and the
non-breaking space U+00A0; higher Unicode whitespace is outside the
modelled range). -/
def pyIsSpace (c : Char) : Bool :=
  c = ' ' || (9 ≤ c.toNat && c.toNat ≤ 13) || (28 ≤ c.toNat && c.toNat ≤ 31)
  || c.toNat = 0x85 || c.toNat = 0xA0

/-- Python `.strip()`: drop whitespace from both ends. -/
def pyStrip (s : String) : String :=
  String.mk (((s.data.dropWhile pyIsSpace).reverse.dropWhile pyIsSpace).reverse)

/-! ## Record store (Supabase tables `companies` and `company_updates`) -/

/-- A row of the `companies` table (COMPANY_COLUMNS). -/
structure CompanyRec where
  company_id : String
  company_name : String
  contact_name : String
  contact_email : String
  portfolio_manager : String
  fund : String
  reporting_cadence : String
  next_due_date : Option Int
  access_token : String
  is_active : Bool
deriving DecidableEq

/-- A row of the `company_updates` table (UPDATE_COLUMNS). -/
structure UpdateRow where
  update_id : String
  submission_date : Int
  company_id : String
  company_name : String
  reporting_period : String
  revenue : String
  expenses : String
  cash : String
  runway_months : Nat
  wins : String
  challenges : String
  asks : String
  investment_update : String
  narrative : String
  meeting_agenda : String
  meeting_minutes : String
  data_warehouse_link : String
  submitted_by : String
deriving DecidableEq

/-- The two persisted collections. -/
structure Store where
  companies : List CompanyRec
  updates : List UpdateRow
deriving DecidableEq

/-- `CompanyRec` with the due date replaced, the effect of the SQL
`update companies set next_due_date = nd where company_id = cid` on a
matching row. -/
def set_due (c : CompanyRec) (nd : Int) : CompanyRec :=
  ⟨c.company_id, c.company_name, c.contact_name, c.contact_email,
   c.portfolio_manager, c.fund, c.reporting_cadence, some nd,
   c.access_token, c.is_active⟩

/-- Embedding of `update_company_due_date(company_id, next_due)`: every
company row whose `company_id` matches gets the new due date. -/
def update_company_due_date (companies : List CompanyRec) (cid : String) (nd : Int) :
    List CompanyRec :=
  companies.map (fun c => if c.company_id = cid then set_due c nd else c)

/-- Embedding of `delete_company(company_id)` together with the cascade.
Modelled from the spec: the cascade deletion of the updates of the
company is performed by a database foreign-key constraint
(`supabase_setup.sql`), which is not under src/; the docstring of
`delete_company` ("Remove a company and all its updates (cascade via DB
foreign key)") and the spec sentence "deleting a Company cascades to
delete all its Updates" describe it, so the embedding removes the
matching company rows and the matching update rows. -/
def delete_company (s : Store) (cid : String) : Store :=
  ⟨s.companies.filter (fun c => !(c.company_id = cid)),
   s.updates.filter (fun u => !(u.company_id = cid))⟩

/-! ## Form handlers (Onboard Companies and Submit Update tabs) -/

/-- The text inputs of the onboarding form. -/
structure CompanyForm where
  company_name : String
  contact_name : String
  contact_email : String
  portfolio_manager : String
  fund : String
  cadence : String
deriving DecidableEq

/-- Embedding of the onboarding submit handler: when any of company
name, contact name or contact email is blank after stripping, the action
surfaces `st.error` and performs no store write (`Except.error`);
otherwise a fresh row is appended via `add_company`.  `new_id` and
`token` stand for the generated `uuid4` values. -/
def onboard_handler (s : Store) (f : CompanyForm) (new_id token : String) (today : Int) :
    Except Unit Store :=
  if pyStrip f.company_name = "" ∨ pyStrip f.contact_name = "" ∨ pyStrip f.contact_email = "" then
    Except.error ()
  else
    Except.ok ⟨s.companies ++
      [⟨new_id, pyStrip f.company_name, pyStrip f.contact_name, pyStrip f.contact_email,
        pyStrip f.portfolio_manager, pyStrip f.fund, f.cadence,
        some (next_due_from_today f.cadence today), token, true⟩],
      s.updates⟩

/-- The inputs of the Submit Update form. -/
structure UpdateForm where
  selected_company : String
  reporting_period : String
  submitted_by : String
  revenue : String
  expenses : String
  cash : String
  runway_months : Nat
  wins : String
  challenges : String
  asks : String
  investment_update : String
  narrative : String
  meeting_agenda : String
  meeting_minutes : String
  data_warehouse_link : String
deriving DecidableEq

/-- Embedding of the dict comprehension
`{r["company_name"]: r for r in companies_df.iterrows()}` read at a
given key: dict insertion overwrites, so the last row with the selected
name wins. -/
def company_lookup (companies : List CompanyRec) (name : String) : Option CompanyRec :=
  companies.foldl (fun acc c => if c.company_name = name then some c else acc) none

/-- Embedding of the Submit Update handler: reject (no write) when the
reporting period or the submitter is blank after stripping; otherwise
append the update payload (`add_update`) and advance the due date of the
selected company to `next_due_from_today` of its cadence
(`update_company_due_date`).  `new_update_id` stands for the generated
`uuid4`; the selectbox only offers names present in the store, the
`none` lookup branch is unreachable in the UI. -/
def submit_update_handler (s : Store) (f : UpdateForm) (new_update_id : String) (today : Int) :
    Except Unit Store :=
  if pyStrip f.reporting_period = "" ∨ pyStrip f.submitted_by = "" then
    Except.error ()
  else
    match company_lookup s.companies f.selected_company with
    | none => Except.error ()
    | some comp =>
      let payload : UpdateRow :=
        ⟨new_update_id, today, comp.company_id, f.selected_company,
         pyStrip f.reporting_period, pyStrip f.revenue, pyStrip f.expenses, pyStrip f.cash,
         f.runway_months, pyStrip f.wins, pyStrip f.challenges, pyStrip f.asks,
         pyStrip f.investment_update, pyStrip f.narrative, pyStrip f.meeting_agenda,
         pyStrip f.meeting_minutes, pyStrip f.data_warehouse_link, pyStrip f.submitted_by⟩
      Except.ok ⟨update_company_due_date s.companies comp.company_id
                   (next_due_from_today comp.reporting_cadence today),
                 s.updates ++ [payload]⟩

/-! ## Date formatting (src/appCRM.py, `_format_date`) -/

/-- Month names for the `%B` directive. -/
def monthName (m : Nat) : String :=
  match m with
  | 1 => "January" | 2 => "February" | 3 => "March" | 4 => "April"
  | 5 => "May" | 6 => "June" | 7 => "July" | 8 => "August"
  | 9 => "September" | 10 => "October" | 11 => "November" | 12 => "December"
  | _ => ""

/-- Zero-padded two-digit rendering for the `%d` directive. -/
def pad2 (n : Nat) : String :=
  if n < 10 then "0" ++ toString n else toString n

def isLeapYear (y : Nat) : Bool :=
  (y % 4 = 0 && !(y % 100 = 0)) || y % 400 = 0

def daysInMonth (y m : Nat) : Nat :=
  if m = 2 then (if isLeapYear y then 29 else 28)
  else if m = 4 ∨ m = 6 ∨ m = 9 ∨ m = 11 then 30
  else 31

def digitVal (c : Char) : Nat := c.toNat - 48

/-- Parse exactly `k` decimal digits (the `%Y` directive matches four). -/
def parseFixedDigits : Nat → Nat → List Char → Option (Nat × List Char)
  | 0, acc, l => some (acc, l)
  | k + 1, acc, l =>
    match l with
    | c :: rest =>
      if c.isDigit then parseFixedDigits k (acc * 10 + digitVal c) rest else none
    | [] => none

/-- Parse one or two decimal digits, greedily (the `%m`, `%d`, `%H`,
`%M`, `%S` directives match one or two digits; the following literal
separator is never a digit, so greediness is exact). -/
def parse2Digits (l : List Char) : Option (Nat × List Char) :=
  match l with
  | c1 :: rest =>
    if c1.isDigit then
      match rest with
      | c2 :: rest2 =>
        if c2.isDigit then some (digitVal c1 * 10 + digitVal c2, rest2)
        else some (digitVal c1, rest)
      | [] => some (digitVal c1, [])
    else none
  | [] => none

def parseLit (c : Char) (l : List Char) : Option (List Char) :=
  match l with
  | x :: rest => if x = c then some rest else none
  | [] => none

/-- Parse `%Y-%m-%d`, returning the unconsumed suffix. -/
def parseYMD (l : List Char) : Option (Nat × Nat × Nat × List Char) :=
  match parseFixedDigits 4 0 l with
  | none => none
  | some (y, l1) =>
    match parseLit '-' l1 with
    | none => none
    | some l2 =>
      match parse2Digits l2 with
      | none => none
      | some (m, l3) =>
        match parseLit '-' l3 with
        | none => none
        | some l4 =>
          match parse2Digits l4 with
          | none => none
          | some (d, l5) => some (y, m, d, l5)

/-- Parse `%H:%M:%S`, returning the unconsumed suffix. -/
def parseHMS (l : List Char) : Option (Nat × Nat × Nat × List Char) :=
  match parse2Digits l with
  | none => none
  | some (h, l1) =>
    match parseLit ':' l1 with
    | none => none
    | some l2 =>
      match parse2Digits l2 with
      | none => none
      | some (mi, l3) =>
        match parseLit ':' l3 with
        | none => none
        | some l4 =>
          match parse2Digits l4 with
          | none => none
          | some (sec, l5) => some (h, mi, sec, l5)

/-- The range checks performed by the `datetime` constructor. -/
def validYMD (y m d : Nat) : Bool :=
  1 ≤ y && y ≤ 9999 && 1 ≤ m && m ≤ 12 && 1 ≤ d && d ≤ daysInMonth y m

def validHMS (h mi sec : Nat) : Bool :=
  h ≤ 23 && mi ≤ 59 && sec ≤ 59

/-- Try the three `strptime` formats of `_format_date`, in order:
`%Y-%m-%d %H:%M:%S`, `%Y-%m-%d`, `%Y-%m-%dT%H:%M:%S`.  Each must
consume the whole input. -/
def tryDateFormats (l : List Char) : Option (Nat × Nat × Nat) :=
  let fmt1 :=
    match parseYMD l with
    | some (y, m, d, rest) =>
      match parseLit ' ' rest with
      | some rest2 =>
        match parseHMS rest2 with
        | some (h, mi, sec, []) =>
          if validYMD y m d && validHMS h mi sec then some (y, m, d) else none
        | _ => none
      | none => none
    | none => none
  match fmt1 with
  | some r => some r
  | none =>
    let fmt2 :=
      match parseYMD l with
      | some (y, m, d, []) => if validYMD y m d then some (y, m, d) else none
      | _ => none
    match fmt2 with
    | some r => some r
    | none =>
      match parseYMD l with
      | some (y, m, d, rest) =>
        match parseLit 'T' rest with
        | some rest2 =>
          match parseHMS rest2 with
          | some (h, mi, sec, []) =>
            if validYMD y m d && validHMS h mi sec then some (y, m, d) else none
          | _ => none
        | none => none
      | none => none

/-- Embedding of `_format_date(raw)`: `None` gives `"N/A"`; otherwise
the stripped text, truncated to 19 characters, is tried against the
three formats and rendered as `%B %d, %Y` on success; on failure the
stripped text itself is returned. -/
def format_date (raw : Option String) : String :=
  match raw with
  | none => "N/A"
  | some s =>
    let text := pyStrip s
    match tryDateFormats (text.data.take 19) with
    | some (y, m, d) => monthName m ++ " " ++ pad2 d ++ ", " ++ toString y
    | none => text

example : format_date (some "2026-01-05") = "January 05, 2026" := by decide
example : format_date (some "2026-01-05 10:20:30") = "January 05, 2026" := by decide
example : format_date (some "hello") = "hello" := by decide
example : format_date none = "N/A" := by decide

/-! ## Report renderer (src/appCRM.py, `generate_pdf_bytes` and helpers)

The embedding captures the text content and the exception structure of
the renderer.  The built-in `helvetica` font of the PDF library covers
Latin-1, and writing a character above U+00FF raises an
`FPDFException`; geometric failures are not modelled.  A rendering step
is a function from the list of already emitted text cells to
`Except (List String) (List String)`: `ok` carries the emitted cells,
`error` models a raised `FPDFException` and carries the cells emitted
before the raise (the `FPDF` object is mutated in place, so an exception
handler observes them). -/

/-- A character the core font can encode. -/
def latin1Char (c : Char) : Bool := c.toNat < 256

/-- A string the core font can encode. -/
def latin1Str (s : String) : Bool := s.data.all latin1Char

/-- Python `.encode("ascii", "replace").decode("ascii")`: every
non-ASCII character becomes a question mark. -/
def asciiReplace (s : String) : String :=
  String.mk (s.data.map (fun c => if c.toNat < 128 then c else '?'))

/-- One `pdf.cell` / `pdf.multi_cell` call: emit the text, or raise when
the font cannot encode it. -/
def cellE (s : String) (acc : List String) : Except (List String) (List String) :=
  if latin1Str s then Except.ok (acc ++ [s]) else Except.error acc

/-- Python `title.upper()` on the ASCII section titles (character-wise
upper-casing; `String.toUpper` of the library is not used because its
byte-position loop does not reduce in the kernel). -/
def pyUpper (s : String) : String :=
  String.mk (s.data.map Char.toUpper)

/-- `UpdatePDF._section_heading(title)`: `pdf.cell` of the upper-cased
title. -/
def sectionHeadingE (title : String) (acc : List String) :
    Except (List String) (List String) :=
  cellE (pyUpper title) acc

/-- A `try ... except FPDFException:` block with a fallback handler:
the handler receives the cells already emitted when the exception was
raised, because the `FPDF` object keeps them. -/
def tryFallbackE (e : Except (List String) (List String))
    (fallback : List String → Except (List String) (List String)) :
    Except (List String) (List String) :=
  match e with
  | Except.ok b => Except.ok b
  | Except.error b => fallback b

/-- A `try ... except FPDFException: pass` block: the exception is
swallowed and the cells emitted before the raise are kept. -/
def trySwallowE (e : Except (List String) (List String)) :
    Except (List String) (List String) :=
  match e with
  | Except.ok b => Except.ok b
  | Except.error b => Except.ok b

/-- `UpdatePDF._info_row(label, value)`: a label cell, then a
`multi_cell` of the normalized value. -/
def infoRowE (label value : String) (acc : List String) :
    Except (List String) (List String) := do
  let a ← cellE label acc
  cellE (normalize_pdf_text (some value)) a

/-- `UpdatePDF._kpi_table(rows)`: per row, a cell of the two-space
indented label and a cell of the two-space indented normalized value. -/
def kpiTableE : List (String × String) → List String → Except (List String) (List String)
  | [], acc => Except.ok acc
  | (label, value) :: rest, acc => do
    let a ← cellE ("  " ++ label) acc
    let b ← cellE ("  " ++ normalize_pdf_text (some value)) a
    kpiTableE rest b

/-- The fallback loop `for label, val in kpi_rows: pdf._info_row(label, val)`. -/
def infoRowsE : List (String × String) → List String → Except (List String) (List String)
  | [], acc => Except.ok acc
  | (label, value) :: rest, acc => do
    let a ← infoRowE label value acc
    infoRowsE rest a

/-- `UpdatePDF._text_block(label, value)`: nothing is rendered when the
normalized value is empty or the placeholder dash; otherwise a label
cell and a `multi_cell` of the normalized value. -/
def textBlockE (label value : String) (acc : List String) :
    Except (List String) (List String) :=
  if normalize_pdf_text (some value) = "" ∨ normalize_pdf_text (some value) = "-" then
    Except.ok acc
  else do
    let a ← cellE label acc
    cellE (normalize_pdf_text (some value)) a

/-- One protected block of the Progress and Narrative sections:
`try: pdf._text_block(label, v) except FPDFException:
pdf._text_block(label, _normalize_pdf_text(v).encode("ascii",
"replace").decode("ascii"))`. -/
def tryTextBlockE (label value : String) (acc : List String) :
    Except (List String) (List String) :=
  tryFallbackE (textBlockE label value acc)
    (textBlockE label (asciiReplace (normalize_pdf_text (some value))))

def tryBlocksE : List (String × String) → List String → Except (List String) (List String)
  | [], acc => Except.ok acc
  | (label, value) :: rest, acc => do
    let a ← tryTextBlockE label value acc
    tryBlocksE rest a

/-- The dict passed to `generate_pdf_bytes` (the Submit-Update payload
or a dashboard row). -/
structure UpdateData where
  company_name : String
  reporting_period : String
  submission_date : Option String
  submitted_by : String
  revenue : String
  expenses : String
  cash : String
  runway_months : Nat
  wins : String
  challenges : String
  asks : String
  investment_update : String
  narrative : String
  meeting_agenda : String
  meeting_minutes : String
  data_warehouse_link : String
deriving DecidableEq

/-- The second line of the report title block. -/
def titleLine (u : UpdateData) : String :=
  normalize_pdf_text (some u.reporting_period) ++ "   |   "
    ++ format_date u.submission_date ++ "   |   Submitted by "
    ++ normalize_pdf_text (some u.submitted_by)

/-- The `kpi_rows` list of the Financial Summary section. -/
def kpiRows (u : UpdateData) : List (String × String) :=
  [("Revenue", u.revenue), ("Expenses", u.expenses), ("Cash on Hand", u.cash),
   ("Runway", toString u.runway_months ++ " months")]

/-- The Financial Summary section: heading, then the KPI table guarded
by `try ... except FPDFException` with the info-row loop as fallback
(the fallback itself is unguarded). -/
def kpiSectionE (u : UpdateData) (acc : List String) :
    Except (List String) (List String) := do
  let a ← sectionHeadingE "Financial Summary" acc
  tryFallbackE (kpiTableE (kpiRows u) a) (infoRowsE (kpiRows u))

/-- The `progress_fields` list. -/
def progressFields (u : UpdateData) : List (String × String) :=
  [("Wins & Highlights", u.wins), ("Challenges & Risks", u.challenges),
   ("Asks from Investors", u.asks), ("Investment Update", u.investment_update)]

/-- The test `_normalize_pdf_text(str(v)) not in ("", "-")`. -/
def nonBlank (v : String) : Bool :=
  !(normalize_pdf_text (some v) = "") && !(normalize_pdf_text (some v) = "-")

/-- The Progress & Challenges section: rendered only when some field is
non-blank; each field is a protected text block with ASCII
transliteration fallback. -/
def progressSectionE (u : UpdateData) (acc : List String) :
    Except (List String) (List String) :=
  if (progressFields u).any (fun lv => nonBlank lv.2) then do
    let a ← sectionHeadingE "Progress & Challenges" acc
    tryBlocksE (progressFields u) a
  else Except.ok acc

/-- The Investor Narrative section: one protected text block with an
empty label. -/
def narrativeSectionE (u : UpdateData) (acc : List String) :
    Except (List String) (List String) :=
  if nonBlank u.narrative then do
    let a ← sectionHeadingE "Investor Narrative" acc
    tryTextBlockE "" u.narrative a
  else Except.ok acc

/-- The Meetings section: heading, then both text blocks inside a single
`try ... except FPDFException: pass` — on failure the section content
emitted so far stays and the exception is swallowed, with no
transliterated re-render. -/
def meetingsSectionE (u : UpdateData) (acc : List String) :
    Except (List String) (List String) :=
  if nonBlank u.meeting_agenda || nonBlank u.meeting_minutes then do
    let a ← sectionHeadingE "Meetings" acc
    trySwallowE (do
      let b ← textBlockE "Agenda" u.meeting_agenda a
      textBlockE "Minutes" u.meeting_minutes b)
  else Except.ok acc

/-- The trailing data-link rows, rendered unguarded when the stripped
link is neither empty nor a dash; the link text is not normalized. -/
def dataLinkE (u : UpdateData) (acc : List String) :
    Except (List String) (List String) :=
  if pyStrip u.data_warehouse_link = "" ∨ pyStrip u.data_warehouse_link = "-" then
    Except.ok acc
  else do
    let a ← cellE "Data Link" acc
    cellE (pyStrip u.data_warehouse_link) a

/-- Embedding of `generate_pdf_bytes(update_data)`: the title block
(unguarded), the Financial Summary, Progress & Challenges, Investor
Narrative and Meetings sections, and the data link, in source order.
The result is the list of emitted text cells, or an error when an
`FPDFException` propagates to the caller. -/
def generate_pdf_lines (u : UpdateData) : Except (List String) (List String) := do
  let a ← cellE (normalize_pdf_text (some u.company_name)) []
  let a ← cellE (titleLine u) a
  let a ← kpiSectionE u a
  let a ← progressSectionE u a
  let a ← narrativeSectionE u a
  let a ← meetingsSectionE u a
  dataLinkE u a

example :
    generate_pdf_lines
      ⟨"Acme", "Jan", none, "Bob", "", "", "", 6, "", "ok", "", "", "", "", "", ""⟩ =
    Except.ok ["Acme", "Jan   |   N/A   |   Submitted by Bob",
      "FINANCIAL SUMMARY", "  Revenue", "  -", "  Expenses", "  -",
      "  Cash on Hand", "  -", "  Runway", "  6 months",
      "PROGRESS & CHALLENGES", "Challenges & Risks", "ok"] := rfl

example :
    generate_pdf_lines
      ⟨"€", "", none, "", "", "", "", 0, "", "", "", "", "", "", "", ""⟩ =
    Except.error [] := rfl

example :
    generate_pdf_lines
      ⟨"Acme", "", none, "", "", "", "", 0, "", "", "", "", "", "€a", "", ""⟩ =
    Except.ok ["Acme", "-   |   N/A   |   Submitted by -",
      "FINANCIAL SUMMARY", "  Revenue", "  -", "  Expenses", "  -",
      "  Cash on Hand", "  -", "  Runway", "  0 months", "MEETINGS",
      "Agenda"] := rfl

example :
    generate_pdf_lines
      ⟨"Acme", "", none, "", "", "", "", 0, "€w", "", "", "", "", "", "", ""⟩ =
    Except.ok ["Acme", "-   |   N/A   |   Submitted by -",
      "FINANCIAL SUMMARY", "  Revenue", "  -", "  Expenses", "  -",
      "  Cash on Hand", "  -", "  Runway", "  0 months",
      "PROGRESS & CHALLENGES", "Wins & Highlights", "Wins & Highlights",
      "?w"] := rfl

/-! ## Claim C1: due-status classification boundaries -/

/-- C1: for every due date D and every date T taken as today, the
due-status classifier returns overdue exactly when D < T, upcoming
exactly when T ≤ D ≤ T + 7 (both boundaries included), on-track (the
spelling of the on_track status in the source) exactly when D > T + 7,
and unknown exactly when the due date is absent. -/
theorem c1_due_status_classification (D T : Int) :
    (due_status (some D) T = "overdue" ↔ D < T) ∧
    (due_status (some D) T = "upcoming" ↔ T ≤ D ∧ D ≤ T + 7) ∧
    (due_status (some D) T = "on-track" ↔ T + 7 < D) ∧
    due_status none T = "unknown" := by
  refine ⟨?_, ?_, ?_, rfl⟩ <;>
    · simp only [due_status]
      split_ifs with h1 h2 <;> simp <;> omega

/-- Witness for C1 at the boundary due date T + 7 with T = 0. -/
theorem c1_due_status_classification_witness : due_status (some 7) 0 = "upcoming" :=
  ((c1_due_status_classification 7 0).2.1).mpr (by omega)

/-! ## Claim C2: cadence offsets -/

/-- C2: the cadence-to-offset function maps Weekly to 7 days, Biweekly
to 14, Monthly to 30, Quarterly to 90, and every other string to 30
days, and next_due equals today plus that offset; the function is a
total dictionary lookup with a default, with no failure branch. -/
theorem c2_cadence_delta_spec (cadence : String) (today : Int) :
    cadence_to_delta "Weekly" = 7 ∧
    cadence_to_delta "Biweekly" = 14 ∧
    cadence_to_delta "Monthly" = 30 ∧
    cadence_to_delta "Quarterly" = 90 ∧
    (cadence ≠ "Weekly" → cadence ≠ "Biweekly" → cadence ≠ "Monthly" →
      cadence ≠ "Quarterly" → cadence_to_delta cadence = 30) ∧
    next_due_from_today cadence today = today + cadence_to_delta cadence := by
  refine ⟨rfl, rfl, rfl, rfl, ?_, rfl⟩
  intro h1 h2 h3 h4
  simp [cadence_to_delta, h1, h2, h3, h4]

/-- Witness for C2 on the unrecognized cadence string "Yearly". -/
theorem c2_cadence_delta_spec_witness :
    cadence_to_delta "Yearly" = 30 ∧ next_due_from_today "Yearly" 5 = 35 :=
  ⟨(c2_cadence_delta_spec "Yearly" 5).2.2.2.2.1
      (by decide) (by decide) (by decide) (by decide),
   by decide⟩


/-! ## Normalization lemmas and claim C10 -/

/-- Characters emitted by `normCR` are newlines or non-CR characters of
the input. -/
theorem normCR_mem (l : List Char) :
    ∀ c ∈ normCR l, c = '\n' ∨ (c ∈ l ∧ c ≠ '\r') := by
  induction l using normCR.induct with
  | case1 => simp [normCR]
  | case2 rest ih =>
    intro c hc
    simp only [normCR, List.mem_cons] at hc
    rcases hc with h | h
    · exact Or.inl h
    · rcases ih c h with h1 | ⟨h2, h3⟩
      · exact Or.inl h1
      · exact Or.inr ⟨by simp [h2], h3⟩
  | case3 rest hne ih =>
    intro c hc
    simp only [normCR, List.mem_cons] at hc
    rcases hc with h | h
    · exact Or.inl h
    · rcases ih c h with h1 | ⟨h2, h3⟩
      · exact Or.inl h1
      · exact Or.inr ⟨by simp [h2], h3⟩
  | case4 c0 rest h2 h3 ih =>
    intro c hc
    simp only [normCR, List.mem_cons] at hc
    rcases hc with h | h
    · refine Or.inr ⟨by simp [h], fun hr => h3 ?_⟩
      rw [← h, hr]
    · rcases ih c h with h1 | ⟨h4, h5⟩
      · exact Or.inl h1
      · exact Or.inr ⟨by simp [h4], h5⟩

/-- `normCR` is the identity on CR-free inputs. -/
theorem normCR_id : ∀ (l : List Char), (∀ c ∈ l, c ≠ '\r') → normCR l = l := by
  intro l
  induction l using normCR.induct with
  | case1 => intro _; rfl
  | case2 rest ih =>
    intro h
    exact absurd (h '\r' (by simp)) (by simp)
  | case3 rest hne ih =>
    intro h
    exact absurd (h '\r' (by simp)) (by simp)
  | case4 c0 rest h2 h3 ih =>
    intro h
    simp only [normCR]
    rw [ih (fun c hc => h c (by simp [hc]))]

/-- The guarantee claimed for normalized PDF text: no carriage return,
no tab, no non-breaking space, and nothing below code point 32 except
the newline. -/
def pdfGoodChar (c : Char) : Bool :=
  !(c = '\r') && !(c = '\t') && !(c.toNat = 0xA0) && (c = '\n' || c.toNat ≥ 32)

/-- Every character produced by the cleaning pipeline is good. -/
theorem pdfClean_good (s : String) : ∀ c ∈ pdfClean s, pdfGoodChar c = true := by
  intro c hc
  unfold pdfClean at hc
  rw [List.mem_filter] at hc
  obtain ⟨hmem, hkeep⟩ := hc
  rw [List.mem_map] at hmem
  obtain ⟨c0, hc0, hmap⟩ := hmem
  have hkeep2 : (c = '\n' || c.toNat ≥ 32) = true := hkeep
  simp only [pdfCharMap] at hmap
  split_ifs at hmap with ht hn
  · simp [← hmap, pdfGoodChar]
  · simp [← hmap, pdfGoodChar]
  · rcases normCR_mem _ c0 hc0 with h | ⟨_, hcr⟩
    · subst hmap
      simp [h, pdfGoodChar]
    · subst hmap
      simp only [pdfGoodChar, Bool.and_eq_true]
      refine ⟨⟨⟨?_, ?_⟩, ?_⟩, hkeep2⟩
      · simp [hcr]
      · simp [ht]
      · simp only [Bool.not_eq_true', decide_eq_false_iff_not]
        intro hna
        exact hn (Char.ext (UInt32.ext (by simpa using hna)))

/-- Characters produced by the cleaning pipeline are newlines, spaces,
or characters of the input. -/
theorem pdfClean_mem (s : String) :
    ∀ c ∈ pdfClean s, c = '\n' ∨ c = ' ' ∨ c ∈ s.data := by
  intro c hc
  unfold pdfClean at hc
  rw [List.mem_filter] at hc
  obtain ⟨hmem, _⟩ := hc
  rw [List.mem_map] at hmem
  obtain ⟨c0, hc0, hmap⟩ := hmem
  simp only [pdfCharMap] at hmap
  split_ifs at hmap with ht hn
  · exact Or.inr (Or.inl hmap.symm)
  · exact Or.inr (Or.inl hmap.symm)
  · rcases normCR_mem _ c0 hc0 with h | ⟨h2, _⟩
    · exact Or.inl (hmap ▸ h)
    · exact Or.inr (Or.inr (hmap ▸ h2))

/-- The cleaning pipeline is the identity on good inputs. -/
theorem pdfClean_id (s : String) (h : ∀ c ∈ s.data, pdfGoodChar c = true) :
    pdfClean s = s.data := by
  unfold pdfClean
  have hcr : ∀ c ∈ s.data, c ≠ '\r' := by
    intro c hc heq
    have hg := h c hc
    rw [heq] at hg
    simp [pdfGoodChar] at hg
  rw [normCR_id _ hcr]
  have hmap : s.data.map pdfCharMap = s.data := by
    have : ∀ c ∈ s.data, pdfCharMap c = c := by
      intro c hc
      have hg := h c hc
      simp only [pdfGoodChar, Bool.and_eq_true, Bool.not_eq_true',
        decide_eq_false_iff_not] at hg
      simp only [pdfCharMap]
      rw [if_neg hg.1.1.2, if_neg]
      intro heq
      exact hg.1.2 (by rw [heq]; rfl)
    calc s.data.map pdfCharMap = s.data.map id := List.map_congr_left this
    _ = s.data := List.map_id _
  rw [hmap]
  apply List.filter_eq_self.mpr
  intro c hc
  have hg := h c hc
  simp only [pdfGoodChar, Bool.and_eq_true] at hg
  exact hg.2

/-- The normalized text never has empty character data. -/
theorem normalize_pdf_text_data_ne_nil (value : Option String) :
    (normalize_pdf_text value).data ≠ [] := by
  unfold normalize_pdf_text
  split
  · decide
  · next hne =>
    intro h
    apply hne
    have h2 : pdfClean (pdfRawText value) = [] := h
    simp [h2]

/-- Every character of the normalized text is good. -/
theorem normalize_pdf_text_good (value : Option String) :
    ∀ c ∈ (normalize_pdf_text value).data, pdfGoodChar c = true := by
  intro c hc
  unfold normalize_pdf_text at hc
  split at hc
  · have h2 : c = '-' := by simpa using hc
    simp [h2, pdfGoodChar]
  · exact pdfClean_good _ c hc

/-! ## Claim C10: totality and invariants of text normalization -/

/-- C10: the PDF text-normalization function is total and never returns
the empty string; `None` normalizes to the placeholder dash; the
non-breaking space U+00A0 is converted to an ordinary space, as is the
tab; the output never contains a carriage return, tab, non-breaking
space, or a control character below code point 32 other than the
newline; and applying the function to its own output returns it
unchanged. -/
theorem c10_normalize_pdf_text_total (v : Option String) :
    0 < (normalize_pdf_text v).length ∧
    normalize_pdf_text none = "-" ∧
    normalize_pdf_text (some " ") = " " ∧
    normalize_pdf_text (some "\t") = " " ∧
    (normalize_pdf_text v).data.all pdfGoodChar = true ∧
    normalize_pdf_text (some (normalize_pdf_text v)) = normalize_pdf_text v := by
  refine ⟨?_, by decide, by decide, by decide, ?_, ?_⟩
  · have h := normalize_pdf_text_data_ne_nil v
    cases hd : (normalize_pdf_text v).data with
    | nil => exact absurd hd h
    | cons a l =>
      have : (normalize_pdf_text v).length = (a :: l).length := by
        rw [← hd]; rfl
      rw [this]
      simp
  · rw [List.all_eq_true]
    exact normalize_pdf_text_good v
  · have hgood := normalize_pdf_text_good v
    have hne : ¬ ((normalize_pdf_text v).data.isEmpty = true) := by
      have h := normalize_pdf_text_data_ne_nil v
      cases hd : (normalize_pdf_text v).data with
      | nil => exact absurd hd h
      | cons a l => simp
    set out := normalize_pdf_text v with hout
    unfold normalize_pdf_text
    rw [show pdfRawText (some out) = out from rfl, pdfClean_id _ hgood, if_neg hne]

/-! ## Slug lemmas and claim C8 -/

/-- The head of a dropWhile result does not satisfy the predicate. -/
theorem dropWhile_head_not (p : Char → Bool) :
    ∀ (l : List Char) (c : Char), (l.dropWhile p).head? = some c → p c = false := by
  intro l
  induction l with
  | nil => intro c h; simp at h
  | cons a rest ih =>
    intro c h
    rw [List.dropWhile_cons] at h
    split_ifs at h with hp
    · exact ih c h
    · have : a = c := by simpa using h
      rw [← this]
      simpa using hp

/-- Dropping a prefix does not change the last element. -/
theorem dropWhile_getLast (p : Char → Bool) :
    ∀ (l : List Char), l.dropWhile p ≠ [] → (l.dropWhile p).getLast? = l.getLast? := by
  intro l
  induction l with
  | nil => intro h; simp at h
  | cons a rest ih =>
    intro h
    rw [List.dropWhile_cons] at h ⊢
    split_ifs at h ⊢ with hp
    · rw [ih h]
      cases rest with
      | nil => simp at h
      | cons b r => simp
    · rfl

/-- Stripping underscores keeps only characters of the input. -/
theorem stripUnderscore_subset (l : List Char) :
    ∀ c ∈ stripUnderscore l, c ∈ l := by
  intro c hc
  unfold stripUnderscore at hc
  rw [List.mem_reverse] at hc
  have h1 : c ∈ (l.dropWhile (fun c => c = '_')).reverse :=
    (List.dropWhile_sublist _).subset hc
  rw [List.mem_reverse] at h1
  exact (List.dropWhile_sublist _).subset h1

/-- The head of a stripped list is not an underscore. -/
theorem stripUnderscore_head (l : List Char) (c : Char)
    (h : (stripUnderscore l).head? = some c) : (c = '_') = False := by
  unfold stripUnderscore at h
  rw [List.head?_reverse] at h
  have hne : (((l.dropWhile (fun c => c = '_')).reverse).dropWhile (fun c => c = '_')) ≠ [] := by
    intro h2
    rw [h2] at h
    simp at h
  rw [dropWhile_getLast _ _ hne, List.getLast?_reverse] at h
  have := dropWhile_head_not (fun c => decide (c = '_')) l c h
  simpa using this

/-- The last element of a stripped list is not an underscore. -/
theorem stripUnderscore_getLast (l : List Char) (c : Char)
    (h : (stripUnderscore l).getLast? = some c) : (c = '_') = False := by
  unfold stripUnderscore at h
  rw [List.getLast?_reverse] at h
  have := dropWhile_head_not (fun c => decide (c = '_')) _ c h
  simpa using this

/-- C8 counterexample: slugifying the single non-ASCII letter é returns
it unchanged, because Python `isalnum` accepts it; the output therefore
contains a character outside the class `[A-Za-z0-9_-]` stated by the
claim, refuting both the per-character mapping and the output-alphabet
consequence. -/
theorem c8_slug_counterexample :
    safe_pdf_slug "é" = "é" ∧ specSlugChar 'é' = false ∧
    (("é".data.all specSlugChar) = false) :=
  ⟨by decide, by decide, by decide⟩

/-- C8 amended: the slugification function maps every character that is
neither a Python (Unicode) alphanumeric nor a hyphen nor an underscore
to an underscore, trims leading and trailing underscores, and returns
the literal string "company" when the result is empty; consequently the
output is never empty, neither starts nor ends with an underscore, and
contains only Python alphanumerics, hyphens and underscores — not only
ASCII ones. -/
theorem c8_slug_amended (raw : String) :
    0 < (safe_pdf_slug raw).length ∧
    ((safe_pdf_slug raw).data.all (fun c => pyIsAlnum c || c = '-' || c = '_')) = true ∧
    ((safe_pdf_slug raw).data.head?.all (fun c => !(c = '_'))) = true ∧
    ((safe_pdf_slug raw).data.getLast?.all (fun c => !(c = '_'))) = true ∧
    safe_pdf_slug "" = "company" := by
  unfold safe_pdf_slug
  split
  · exact ⟨by decide, by decide, by decide, by decide, by decide⟩
  · next hne =>
    have hnil : stripUnderscore (slugJoined raw) ≠ [] := by
      simpa using hne
    refine ⟨?_, ?_, ?_, ?_, by decide⟩
    · cases hd : stripUnderscore (slugJoined raw) with
      | nil => exact absurd hd hnil
      | cons a l => simp [String.length, hd]
    · rw [List.all_eq_true]
      intro c hc
      have h1 := stripUnderscore_subset _ c hc
      unfold slugJoined at h1
      rw [List.mem_map] at h1
      obtain ⟨c0, _, hmap⟩ := h1
      by_cases hk : (pyIsAlnum c0 || c0 = '-' || c0 = '_') = true
      · rw [if_pos hk] at hmap
        rw [← hmap]
        exact hk
      · rw [if_neg hk] at hmap
        simp [← hmap]
    · cases hh : (stripUnderscore (slugJoined raw)).head? with
      | none => simp [hh]
      | some c =>
        have := stripUnderscore_head _ c hh
        simp [hh, Option.all]
        intro habs
        rw [habs] at this
        simp at this
    · cases hh : (stripUnderscore (slugJoined raw)).getLast? with
      | none => simp [hh]
      | some c =>
        have := stripUnderscore_getLast _ c hh
        simp [hh, Option.all]
        intro habs
        rw [habs] at this
        simp at this

/-! ## Claim C3: display consistency with the classifier -/

/-- The classifier returns one of four strings. -/
theorem due_status_cases (d : Option Int) (t : Int) :
    due_status d t = "unknown" ∨ due_status d t = "overdue" ∨
    due_status d t = "upcoming" ∨ due_status d t = "on-track" := by
  rcases d with _ | dd
  · exact Or.inl rfl
  · unfold due_status
    dsimp only
    split_ifs <;> simp

/-- C3 counterexample: a company due exactly today is counted by the
sidebar overdue metric, but the classifier rates that date upcoming, so
the dashboard overdue count differs from the number of companies whose
classifier status is overdue, already on a one-company store. -/
theorem c3_display_counterexample :
    overdue_count [some 0] 0 = 1 ∧
    ([some (0 : Int)].countP (fun d => due_status d 0 == "overdue")) = 0 ∧
    due_status (some 0) 0 = "upcoming" :=
  ⟨by decide, by decide, by decide⟩

/-- C3 amended: the sidebar overdue count equals the number of
companies whose due date is present and on or before today, that is the
classifier-overdue companies plus those due exactly today; the Reminders
buckets agree with the classifier for the overdue and upcoming statuses,
but companies with an absent due date (classifier unknown) land in the
on-track bucket; and the per-company Reminders badge substitutes today
for an absent due date, showing upcoming instead of unknown. -/
theorem c3_display_amended (dues : List (Option Int)) (today : Int) :
    overdue_count dues today =
      dues.countP (fun d =>
        match d with
        | some dd => due_status (some dd) today == "overdue" || dd == today
        | none => false) ∧
    (sequence_buckets dues today).1 =
      dues.filter (fun d => due_status d today == "overdue") ∧
    (sequence_buckets dues today).2.1 =
      dues.filter (fun d => due_status d today == "upcoming") ∧
    (sequence_buckets dues today).2.2 =
      dues.filter (fun d =>
        due_status d today == "on-track" || due_status d today == "unknown") ∧
    sequence_row_status none today = "upcoming" ∧
    (∀ dd : Int, sequence_row_status (some dd) today = due_status (some dd) today) := by
  refine ⟨?_, ?_, ?_, ?_, ?_, fun dd => rfl⟩
  · apply List.countP_congr
    intro d _
    rcases d with _ | dd
    · simp
    · dsimp only
      unfold due_status
      dsimp only
      split_ifs with h1 h2 <;> simp <;> omega
  · induction dues with
    | nil => rfl
    | cons d rest ih =>
      simp only [sequence_buckets, List.filter]
      rcases due_status_cases d today with h | h | h | h <;>
        rw [h] <;> simp [ih]
  · induction dues with
    | nil => rfl
    | cons d rest ih =>
      simp only [sequence_buckets, List.filter]
      rcases due_status_cases d today with h | h | h | h <;>
        rw [h] <;> simp [ih]
  · induction dues with
    | nil => rfl
    | cons d rest ih =>
      simp only [sequence_buckets, List.filter]
      rcases due_status_cases d today with h | h | h | h <;>
        rw [h] <;> simp [ih]
  · unfold sequence_row_status due_status
    simp only [Option.getD]
    split_ifs with h1 h2
    · exact absurd h1 (by omega)
    · rfl
    · exact absurd h2 (by omega)

/-! ## Claim C5: cascade deletion -/

/-- C5: deleting company cid removes exactly the company rows carrying
that id and exactly the update rows referencing it; membership after
the delete holds precisely for records that were present before and
reference a different company id, so every other company and update is
untouched. -/
theorem c5_delete_company_cascade (s : Store) (cid : String)
    (c : CompanyRec) (u : UpdateRow) :
    (c ∈ (delete_company s cid).companies ↔ c ∈ s.companies ∧ c.company_id ≠ cid) ∧
    (u ∈ (delete_company s cid).updates ↔ u ∈ s.updates ∧ u.company_id ≠ cid) := by
  unfold delete_company
  constructor <;> simp [List.mem_filter]

def c5CompanyA : CompanyRec :=
  ⟨"a", "Acme", "Jane", "jane@acme.io", "PM", "Fund I", "Monthly", some 30, "tok1", true⟩

def c5CompanyB : CompanyRec :=
  ⟨"b", "Beta", "Joan", "joan@beta.io", "PM", "Fund I", "Weekly", some 7, "tok2", true⟩

def c5UpdateA : UpdateRow :=
  ⟨"u1", 0, "a", "Acme", "Jan", "", "", "", 6, "", "", "", "", "", "", "", "", "Jane"⟩

def c5UpdateB : UpdateRow :=
  ⟨"u2", 0, "b", "Beta", "Jan", "", "", "", 6, "", "", "", "", "", "", "", "", "Joan"⟩

def c5Store : Store := ⟨[c5CompanyA, c5CompanyB], [c5UpdateA, c5UpdateB]⟩

/-- Witness for C5: after deleting company a from a two-company store,
the other company is still present. -/
theorem c5_delete_company_cascade_witness :
    c5CompanyB ∈ (delete_company c5Store "a").companies :=
  ((c5_delete_company_cascade c5Store "a" c5CompanyB c5UpdateB).1).mpr
    ⟨by decide, by decide⟩

/-! ## Claim C9: validation precedes writes -/

/-- C9: a Company creation whose company name, contact name or contact
email is blank after stripping, and an Update creation whose reporting
period or submitter is blank after stripping, are rejected before any
store write: the handler returns the error outcome carrying no store,
so both collections remain exactly as they were. -/
theorem c9_validation_rejects (s : Store) (cf : CompanyForm) (uf : UpdateForm)
    (new_id token uid : String) (today : Int) :
    ((pyStrip cf.company_name = "" ∨ pyStrip cf.contact_name = "" ∨
        pyStrip cf.contact_email = "") →
      onboard_handler s cf new_id token today = Except.error ()) ∧
    ((pyStrip uf.reporting_period = "" ∨ pyStrip uf.submitted_by = "") →
      submit_update_handler s uf uid today = Except.error ()) := by
  constructor
  · intro h
    unfold onboard_handler
    rw [if_pos h]
  · intro h
    unfold submit_update_handler
    rw [if_pos h]

/-- Witness for C9: an onboarding form with an empty company name and an
update form whose reporting period is a single space are both rejected
on an empty store. -/
theorem c9_validation_rejects_witness :
    onboard_handler ⟨[], []⟩ ⟨"", "Jane", "jane@acme.io", "PM", "Fund I", "Monthly"⟩
        "i" "t" 0 = Except.error () ∧
    submit_update_handler ⟨[], []⟩
        ⟨"Acme", " ", "Bob", "", "", "", 0, "", "", "", "", "", "", "", ""⟩
        "u" 0 = Except.error () :=
  ⟨(c9_validation_rejects ⟨[], []⟩
      ⟨"", "Jane", "jane@acme.io", "PM", "Fund I", "Monthly"⟩
      ⟨"Acme", " ", "Bob", "", "", "", 0, "", "", "", "", "", "", "", ""⟩
      "i" "t" "u" 0).1 (Or.inl (by decide)),
   (c9_validation_rejects ⟨[], []⟩
      ⟨"", "Jane", "jane@acme.io", "PM", "Fund I", "Monthly"⟩
      ⟨"Acme", " ", "Bob", "", "", "", 0, "", "", "", "", "", "", "", ""⟩
      "i" "t" "u" 0).2 (Or.inl (by decide))⟩

/-! ## Claim C4: update submission advances the due date -/

/-- Every row matching the id carries the new due date after
`update_company_due_date`. -/
theorem update_due_mem (l : List CompanyRec) (cid : String) (nd : Int) :
    ∀ c1 ∈ update_company_due_date l cid nd, c1.company_id = cid →
      c1.next_due_date = some nd := by
  intro c1 h1 hid
  unfold update_company_due_date at h1
  rw [List.mem_map] at h1
  obtain ⟨c0, _, hmap⟩ := h1
  by_cases h : c0.company_id = cid
  · rw [if_pos h] at hmap
    rw [← hmap]
    rfl
  · rw [if_neg h] at hmap
    rw [← hmap] at hid
    exact absurd hid h

/-- `company_lookup` commutes with a name-preserving row map. -/
theorem company_lookup_map (l : List CompanyRec) (name : String)
    (g : CompanyRec → CompanyRec) (hg : ∀ c, (g c).company_name = c.company_name) :
    company_lookup (l.map g) name = (company_lookup l name).map g := by
  unfold company_lookup
  suffices h : ∀ (init : Option CompanyRec),
      (l.map g).foldl (fun acc c => if c.company_name = name then some c else acc)
          (init.map g) =
        (l.foldl (fun acc c => if c.company_name = name then some c else acc) init).map g by
    exact h none
  induction l with
  | nil => intro init; rfl
  | cons a rest ih =>
    intro init
    simp only [List.map, List.foldl]
    rw [hg a]
    by_cases hn : a.company_name = name
    · rw [if_pos hn, if_pos hn]
      exact ih (some a)
    · rw [if_neg hn, if_neg hn]
      exact ih init

/-- C4: when an Update submission for the company found under the
selected name succeeds on date T, every stored company row carrying
that id has its next_due_date overwritten with T plus the cadence
offset of the company (T plus 30 for the Monthly cadence); and a second
successful submission on the same date leaves the due date at exactly
the same value. -/
theorem c4_submit_update_due_date (s : Store) (f : UpdateForm)
    (uid uid2 : String) (today : Int) (c : CompanyRec) (s1 s2 : Store)
    (hlook : company_lookup s.companies f.selected_company = some c)
    (h1 : submit_update_handler s f uid today = Except.ok s1) :
    (∀ c1 ∈ s1.companies, c1.company_id = c.company_id →
       c1.next_due_date = some (today + cadence_to_delta c.reporting_cadence)) ∧
    (submit_update_handler s1 f uid2 today = Except.ok s2 →
      ∀ c2 ∈ s2.companies, c2.company_id = c.company_id →
        c2.next_due_date = some (today + cadence_to_delta c.reporting_cadence)) := by
  unfold submit_update_handler at h1
  split at h1
  · exact absurd h1 (by simp)
  · next hv =>
    rw [hlook] at h1
    dsimp only at h1
    injection h1 with h1
    subst h1
    constructor
    · intro c1 hc1 hid
      exact update_due_mem _ _ _ c1 hc1 hid
    · intro h2
      unfold submit_update_handler at h2
      split at h2
      · exact absurd h2 (by simp)
      · next hv2 =>
        have hg : ∀ x : CompanyRec,
            ((fun x => if x.company_id = c.company_id
                then set_due x (next_due_from_today c.reporting_cadence today)
                else x) x).company_name = x.company_name := by
          intro x
          by_cases h : x.company_id = c.company_id <;> simp [h, set_due]
        have hlook2 : company_lookup
            (update_company_due_date s.companies c.company_id
              (next_due_from_today c.reporting_cadence today)) f.selected_company =
            some (set_due c (next_due_from_today c.reporting_cadence today)) := by
          unfold update_company_due_date
          rw [company_lookup_map _ _ _ hg, hlook]
          simp
        rw [hlook2] at h2
        dsimp only at h2
        injection h2 with h2
        subst h2
        intro c2 hc2 hid
        exact update_due_mem _ _ _ c2 hc2 hid

def c4Company : CompanyRec :=
  ⟨"id1", "Acme", "Jane", "jane@acme.io", "PM", "Fund I", "Monthly", some 0, "tok", true⟩

def c4Store : Store := ⟨[c4Company], []⟩

def c4Form : UpdateForm :=
  ⟨"Acme", "Jan 2026", "Bob", "$1", "$2", "$3", 6, "w", "c", "a", "i", "n", "ma", "mm", ""⟩

def c4Payload : UpdateRow :=
  ⟨"u1", 100, "id1", "Acme", "Jan 2026", "$1", "$2", "$3", 6, "w", "c", "a", "i",
   "n", "ma", "mm", "", "Bob"⟩

def c4Store1 : Store := ⟨[set_due c4Company 130], [c4Payload]⟩

/-- Witness for C4: submitting a Monthly update on day 100 stores due
day 130, overwriting the prior due day 0. -/
theorem c4_submit_update_due_date_witness :
    (set_due c4Company 130).next_due_date = some 130 :=
  (c4_submit_update_due_date c4Store c4Form "u1" "u2" 100 c4Company c4Store1 c4Store1
      rfl rfl).1 (set_due c4Company 130) (by decide) rfl

/-! ## Renderer lemmas -/

/-- An all-ASCII string is Latin-1 encodable. -/
theorem latin1_of_ascii (s : String) (h : ∀ c ∈ s.data, c.toNat < 128) :
    latin1Str s = true := by
  unfold latin1Str
  rw [List.all_eq_true]
  intro c hc
  unfold latin1Char
  have h2 := h c hc
  simp only [decide_eq_true_eq]
  omega

/-- ASCII transliteration yields only ASCII characters. -/
theorem asciiReplace_ascii (s : String) :
    ∀ c ∈ (asciiReplace s).data, c.toNat < 128 := by
  intro c hc
  have hc2 : c ∈ s.data.map (fun c => if c.toNat < 128 then c else '?') := hc
  rw [List.mem_map] at hc2
  obtain ⟨c0, _, hmap⟩ := hc2
  by_cases h : c0.toNat < 128
  · rw [if_pos h] at hmap
    rw [← hmap]
    exact h
  · rw [if_neg h] at hmap
    rw [← hmap]
    decide

/-- Normalization of an all-ASCII string is all-ASCII. -/
theorem normalize_ascii (s : String) (h : ∀ c ∈ s.data, c.toNat < 128) :
    ∀ c ∈ (normalize_pdf_text (some s)).data, c.toNat < 128 := by
  intro c hc
  unfold normalize_pdf_text at hc
  split at hc
  · have h2 : c = '-' := by simpa using hc
    rw [h2]
    decide
  · have hc2 : c ∈ pdfClean (pdfRawText (some s)) := hc
    have hraw : pdfRawText (some s) = s := rfl
    rw [hraw] at hc2
    rcases pdfClean_mem s c hc2 with h1 | h1 | h1
    · rw [h1]; decide
    · rw [h1]; decide
    · exact h c h1

/-- A cell of encodable text emits the text. -/
theorem cellE_ok (s : String) (h : latin1Str s = true) :
    ∀ acc, cellE s acc = Except.ok (acc ++ [s]) := by
  intro acc
  unfold cellE
  rw [if_pos h]

/-- Binding a successful step is application. -/
theorem bind_ok (b : List String)
    (f : List String → Except (List String) (List String)) :
    (Except.ok b >>= f) = f b := rfl

/-- A chain of steps succeeds when each step does. -/
theorem bind_ex {e : Except (List String) (List String)}
    {f : List String → Except (List String) (List String)}
    (he : ∃ b, e = Except.ok b) (hf : ∀ b, ∃ c, f b = Except.ok c) :
    ∃ c, (e >>= f) = Except.ok c := by
  obtain ⟨b, hb⟩ := he
  obtain ⟨c, hc⟩ := hf b
  refine ⟨c, ?_⟩
  rw [hb, bind_ok]
  exact hc

/-- A text block whose normalized value is ASCII cannot raise. -/
theorem textBlockE_ascii_ok (label v : String) (acc : List String)
    (hl : latin1Str label = true)
    (hv : ∀ c ∈ (normalize_pdf_text (some v)).data, c.toNat < 128) :
    ∃ b, textBlockE label v acc = Except.ok b := by
  unfold textBlockE
  split
  · exact ⟨acc, rfl⟩
  · refine ⟨acc ++ [label] ++ [normalize_pdf_text (some v)], ?_⟩
    rw [cellE_ok label hl, bind_ok, cellE_ok _ (latin1_of_ascii _ hv)]

/-- A protected text block never raises: on an encoding failure the
transliterated re-render succeeds. -/
theorem tryTextBlockE_ok (label v : String) (acc : List String)
    (hl : latin1Str label = true) :
    ∃ b, tryTextBlockE label v acc = Except.ok b := by
  unfold tryTextBlockE tryFallbackE
  cases he : textBlockE label v acc with
  | error a =>
    dsimp only
    exact textBlockE_ascii_ok label _ a hl
      (normalize_ascii _ (asciiReplace_ascii _))
  | ok a => exact ⟨a, rfl⟩

/-- A list of protected text blocks with encodable labels never
raises. -/
theorem tryBlocksE_ok : ∀ (rows : List (String × String)) (acc : List String),
    (∀ lv ∈ rows, latin1Str lv.1 = true) →
    ∃ b, tryBlocksE rows acc = Except.ok b := by
  intro rows
  induction rows with
  | nil => intro acc _; exact ⟨acc, rfl⟩
  | cons lv rest ih =>
    intro acc h
    obtain ⟨l, v⟩ := lv
    obtain ⟨b1, hb1⟩ := tryTextBlockE_ok l v acc (h (l, v) (by simp))
    obtain ⟨b2, hb2⟩ := ih b1 (fun x hx => h x (by simp [hx]))
    refine ⟨b2, ?_⟩
    unfold tryBlocksE
    rw [hb1, bind_ok]
    exact hb2

/-- The KPI table succeeds when every cell text is encodable. -/
theorem kpiTableE_ok : ∀ (rows : List (String × String)) (acc : List String),
    (∀ lv ∈ rows, latin1Str ("  " ++ lv.1) = true ∧
        latin1Str ("  " ++ normalize_pdf_text (some lv.2)) = true) →
    ∃ b, kpiTableE rows acc = Except.ok b := by
  intro rows
  induction rows with
  | nil => intro acc _; exact ⟨acc, rfl⟩
  | cons lv rest ih =>
    intro acc h
    obtain ⟨l, v⟩ := lv
    obtain ⟨hl, hv⟩ := h (l, v) (by simp)
    obtain ⟨b2, hb2⟩ :=
      ih ((acc ++ ["  " ++ l]) ++ ["  " ++ normalize_pdf_text (some v)])
        (fun x hx => h x (by simp [hx]))
    refine ⟨b2, ?_⟩
    unfold kpiTableE
    rw [cellE_ok _ hl, bind_ok, cellE_ok _ hv, bind_ok]
    exact hb2

/-- The Financial Summary section succeeds when the KPI values are
encodable. -/
theorem kpiSectionE_ok (u : UpdateData) (acc : List String)
    (h : ∀ lv ∈ kpiRows u, latin1Str ("  " ++ normalize_pdf_text (some lv.2)) = true) :
    ∃ b, kpiSectionE u acc = Except.ok b := by
  have hlabels : ∀ lv ∈ kpiRows u, latin1Str ("  " ++ lv.1) = true ∧
      latin1Str ("  " ++ normalize_pdf_text (some lv.2)) = true := by
    intro lv hlv
    refine ⟨?_, h lv hlv⟩
    unfold kpiRows at hlv
    simp at hlv
    rcases hlv with h1 | h1 | h1 | h1 <;> rw [h1] <;> dsimp only <;> decide
  obtain ⟨b, hb⟩ :=
    kpiTableE_ok (kpiRows u) (acc ++ [pyUpper "Financial Summary"]) hlabels
  refine ⟨b, ?_⟩
  unfold kpiSectionE sectionHeadingE
  rw [cellE_ok _ (by decide), bind_ok]
  unfold tryFallbackE
  rw [hb]

/-- The Progress & Challenges section never raises. -/
theorem progressSectionE_ok (u : UpdateData) (acc : List String) :
    ∃ b, progressSectionE u acc = Except.ok b := by
  unfold progressSectionE
  split
  · have hlabels : ∀ lv ∈ progressFields u, latin1Str lv.1 = true := by
      intro lv hlv
      unfold progressFields at hlv
      simp at hlv
      rcases hlv with h1 | h1 | h1 | h1 <;> rw [h1] <;> dsimp only <;> decide
    obtain ⟨b, hb⟩ :=
      tryBlocksE_ok (progressFields u) (acc ++ [pyUpper "Progress & Challenges"]) hlabels
    refine ⟨b, ?_⟩
    unfold sectionHeadingE
    rw [cellE_ok _ (by decide), bind_ok]
    exact hb
  · exact ⟨acc, rfl⟩

/-- The Investor Narrative section never raises. -/
theorem narrativeSectionE_ok (u : UpdateData) (acc : List String) :
    ∃ b, narrativeSectionE u acc = Except.ok b := by
  unfold narrativeSectionE
  split
  · obtain ⟨b, hb⟩ :=
      tryTextBlockE_ok "" u.narrative (acc ++ [pyUpper "Investor Narrative"]) (by decide)
    refine ⟨b, ?_⟩
    unfold sectionHeadingE
    rw [cellE_ok _ (by decide), bind_ok]
    exact hb
  · exact ⟨acc, rfl⟩

/-- The Meetings section never raises: its exception is swallowed. -/
theorem meetingsSectionE_ok (u : UpdateData) (acc : List String) :
    ∃ b, meetingsSectionE u acc = Except.ok b := by
  unfold meetingsSectionE
  split
  · unfold sectionHeadingE
    rw [cellE_ok _ (by decide), bind_ok]
    unfold trySwallowE
    split
    · next b heq => exact ⟨b, rfl⟩
    · next b heq => exact ⟨b, rfl⟩
  · exact ⟨acc, rfl⟩

/-- The data link rows succeed when the stripped link is encodable. -/
theorem dataLinkE_ok (u : UpdateData) (acc : List String)
    (h : latin1Str (pyStrip u.data_warehouse_link) = true) :
    ∃ b, dataLinkE u acc = Except.ok b := by
  unfold dataLinkE
  split
  · exact ⟨acc, rfl⟩
  · refine ⟨acc ++ ["Data Link"] ++ [pyStrip u.data_warehouse_link], ?_⟩
    rw [cellE_ok _ (by decide), bind_ok, cellE_ok _ h]

/-! ## Claim C6: renderer encoding-failure recovery -/

def c6Bad : UpdateData :=
  ⟨"€", "", none, "", "", "", "", 0, "", "", "", "", "", "", "", ""⟩

/-- C6 counterexample: an update whose company name contains a
character the font cannot encode makes the renderer raise to the
caller — the title block has no transliteration fallback — so the
renderer is not total on unencodable text and the caller does see the
error, contradicting the claim. -/
theorem c6_renderer_counterexample :
    generate_pdf_lines c6Bad = Except.error [] := rfl

/-- C6 amended: the ASCII-transliteration recovery protects only the
Progress & Challenges text blocks and the Investor Narrative; the
Meetings section swallows an encoding failure, keeping what was emitted
before it but dropping the failing content with no transliterated
re-render; the title block, the financial-KPI fallback rows and the
data link are unprotected.  Consequently the renderer is guaranteed not
to raise exactly when the unprotected texts — the normalized company
name, the title line, the four KPI value cells and the stripped data
link — are encodable, whatever the progress, narrative and meeting
fields contain. -/
theorem c6_renderer_amended (u : UpdateData)
    (h1 : latin1Str (normalize_pdf_text (some u.company_name)) = true)
    (h2 : latin1Str (titleLine u) = true)
    (h3 : ∀ lv ∈ kpiRows u, latin1Str ("  " ++ normalize_pdf_text (some lv.2)) = true)
    (h4 : latin1Str (pyStrip u.data_warehouse_link) = true) :
    ∃ out, generate_pdf_lines u = Except.ok out := by
  unfold generate_pdf_lines
  refine bind_ex ⟨_, cellE_ok _ h1 []⟩ (fun a1 => ?_)
  refine bind_ex ⟨_, cellE_ok _ h2 a1⟩ (fun a2 => ?_)
  refine bind_ex (kpiSectionE_ok u a2 h3) (fun a3 => ?_)
  refine bind_ex (progressSectionE_ok u a3) (fun a4 => ?_)
  refine bind_ex (narrativeSectionE_ok u a4) (fun a5 => ?_)
  refine bind_ex (meetingsSectionE_ok u a5) (fun a6 => ?_)
  exact dataLinkE_ok u a6 h4

def c6Witness : UpdateData :=
  ⟨"Acme", "Q1", none, "Ana", "$10", "$8", "$50", 9, "win €", "", "", "",
   "narrative €", "agenda €", "", "https://example.com/data"⟩

/-- Witness for the amended C6: an update whose wins, narrative and
meeting agenda all contain the unencodable character € still renders
without an error, because those fields are the protected ones. -/
theorem c6_renderer_amended_witness :
    ∃ out, generate_pdf_lines c6Witness = Except.ok out :=
  c6_renderer_amended c6Witness (by decide) (by decide) (by decide) (by decide)

/-! ## Claim C7: empty fields and the placeholder dash -/

def c7Empty : UpdateData :=
  ⟨"Acme", "Jan", none, "Bob", "", "", "", 6, "", "ok", "", "", "", "", "", ""⟩

/-- C7 counterexample: rendering an update whose wins field is the
empty string produces a document with no section for that field at all:
the emitted cells contain neither the label of the wins block nor a
dash for it (the only dashes are the KPI value cells), instead of a
wins section showing the placeholder dash. -/
theorem c7_empty_wins_counterexample :
    generate_pdf_lines c7Empty =
      Except.ok ["Acme", "Jan   |   N/A   |   Submitted by Bob",
        "FINANCIAL SUMMARY", "  Revenue", "  -", "  Expenses", "  -",
        "  Cash on Hand", "  -", "  Runway", "  6 months",
        "PROGRESS & CHALLENGES", "Challenges & Risks", "ok"] ∧
    "Wins & Highlights" ∉ (["Acme", "Jan   |   N/A   |   Submitted by Bob",
        "FINANCIAL SUMMARY", "  Revenue", "  -", "  Expenses", "  -",
        "  Cash on Hand", "  -", "  Runway", "  6 months",
        "PROGRESS & CHALLENGES", "Challenges & Risks", "ok"] : List String) ∧
    "-" ∉ (["Acme", "Jan   |   N/A   |   Submitted by Bob",
        "FINANCIAL SUMMARY", "  Revenue", "  -", "  Expenses", "  -",
        "  Cash on Hand", "  -", "  Runway", "  6 months",
        "PROGRESS & CHALLENGES", "Challenges & Risks", "ok"] : List String) :=
  ⟨rfl, by decide, by decide⟩

/-- C7 amended: a free-text field that is empty after normalization is
omitted entirely by the text-block renderer — no label, no dash — while
the placeholder dash does appear for empty fields of the financial KPI
table, whose value cell is the two-space indented dash. -/
theorem c7_empty_field_amended (label value : String) (acc : List String)
    (h : normalize_pdf_text (some value) = "-") :
    textBlockE label value acc = Except.ok acc ∧
    "  " ++ normalize_pdf_text (some value) = "  -" ∧
    normalize_pdf_text (some "") = "-" := by
  refine ⟨?_, by rw [h]; rfl, by decide⟩
  unfold textBlockE
  rw [if_pos (Or.inr h)]

/-- Witness for the amended C7: the wins block of an update with empty
wins renders nothing. -/
theorem c7_empty_field_amended_witness :
    textBlockE "Wins & Highlights" "" [] = Except.ok [] :=
  (c7_empty_field_amended "Wins & Highlights" "" [] (by decide)).1
